import Mathlib

/-!
Verification of the structured-text pipeline of `ai-code-context`:
glob-pattern file filtering (`analyzer.ts`: `matchesPattern`,
`shouldAnalyzeFile`), AI-response section extraction (`analyzer.ts`:
`extractSections`, `extractListItems`, `parseAnalysisResponse`) and
unified-diff parsing (`git-utils.ts`: `parseDiffOutput`,
`getContextLines`, and the hunk-header regex).

Strings are modelled as `List Char` (`Str`).  JavaScript regular
expressions are modelled by executable Lean functions reproducing the
ECMAScript matching semantics of the concrete regexes the code builds;
`new RegExp` construction failures (SyntaxError) are modelled as `none`.
-/

/-- Strings are modelled as lists of characters. -/
abbrev Str := List Char

/-- Convert a Lean string literal to the model representation. -/
def str (s : String) : Str := s.data

/-- `p` is a prefix of `s` (character-wise). -/
def strStartsWith (p s : Str) : Bool :=
  match p, s with
  | [], _ => true
  | _ :: _, [] => false
  | a :: ps, c :: cs => a == c && strStartsWith ps cs

/-- The ECMAScript `\s` character set (WhiteSpace and LineTerminator code
points), which is also the set trimmed by `String.prototype.trim`. -/
def jsWhitespace (c : Char) : Bool :=
  let n := c.toNat
  n == 9 || n == 10 || n == 11 || n == 12 || n == 13 || n == 32 ||
  n == 0xa0 || n == 0x1680 || (0x2000 ≤ n && n ≤ 0x200a) ||
  n == 0x2028 || n == 0x2029 || n == 0x202f || n == 0x205f ||
  n == 0x3000 || n == 0xfeff

/-- `String.prototype.trim`: strip `jsWhitespace` from both ends. -/
def trimJs (s : Str) : Str :=
  ((s.dropWhile jsWhitespace).reverse.dropWhile jsWhitespace).reverse

/-- `String.prototype.split('\n')`: split on newline, keeping empty
pieces (a trailing newline yields a trailing empty piece). -/
def splitNl : Str → List Str
  | [] => [[]]
  | c :: rest =>
    if c = '\n' then [] :: splitNl rest
    else
      match splitNl rest with
      | [] => [[c]]
      | g :: gs => (c :: g) :: gs

/-- Numeric value of a list of decimal digits (`parseInt(digits, 10)`). -/
def natOfDigits (ds : Str) : Nat :=
  ds.foldl (fun n c => n * 10 + (c.toNat - 48)) 0

/-!
### Model of the ECMAScript regexes built by `matchesPattern`

`matchesPattern` builds `new RegExp('^' + translated + '$')` and calls
`.test`.  We model the regex dialect actually produced by the glob
translation (literals, `.`, character classes, postfix `*` `+` `?`),
with an abstract syntax tree and a Brzozowski-derivative matcher.
Constructs outside this subset — grouping, alternation and embedded
anchors — are modelled as compilation failures (`none`); in particular
the genuinely invalid inputs used below (`(`, `)`, unterminated `[`,
a dangling quantifier) are SyntaxErrors for `new RegExp` as well.
Since the subset has no alternation, `'^' + t + '$'` tested by
`RegExp.test` is exactly a whole-string match of `t`.
-/

/-- Abstract syntax of the modelled regex subset.  A class is a list of
character ranges (a single character is a degenerate range). -/
inductive Re where
  | emp : Re
  | eps : Re
  | lit : Char → Re
  | dot : Re
  | cls : Bool → List (Char × Char) → Re
  | cat : Re → Re → Re
  | alt : Re → Re → Re
  | star : Re → Re

/-- Does a character class (negated if `neg`) match `c`? -/
def clsMatch (neg : Bool) (items : List (Char × Char)) (c : Char) : Bool :=
  let inside := items.any (fun r => r.1 ≤ c && c ≤ r.2)
  if neg then !inside else inside

/-- ECMAScript `.`: any character except a LineTerminator. -/
def dotMatch (c : Char) : Bool :=
  let n := c.toNat
  !(n == 10 || n == 13 || n == 0x2028 || n == 0x2029)

/-- Does the regex accept the empty string? -/
def Re.nullable : Re → Bool
  | .emp => false
  | .eps => true
  | .lit _ => false
  | .dot => false
  | .cls _ _ => false
  | .cat a b => a.nullable && b.nullable
  | .alt a b => a.nullable || b.nullable
  | .star _ => true

/-- Concatenation with basic simplification, to keep derivatives small. -/
def Re.mkCat : Re → Re → Re
  | .emp, _ => .emp
  | _, .emp => .emp
  | .eps, b => b
  | a, .eps => a
  | a, b => .cat a b

/-- Alternation with basic simplification. -/
def Re.mkAlt : Re → Re → Re
  | .emp, b => b
  | a, .emp => a
  | a, b => .alt a b

/-- Brzozowski derivative with respect to character `c`. -/
def Re.deriv : Re → Char → Re
  | .emp, _ => .emp
  | .eps, _ => .emp
  | .lit a, c => if a = c then .eps else .emp
  | .dot, c => if dotMatch c then .eps else .emp
  | .cls neg items, c => if clsMatch neg items c then .eps else .emp
  | .cat a b, c =>
    if a.nullable then Re.mkAlt (Re.mkCat (a.deriv c) b) (b.deriv c)
    else Re.mkCat (a.deriv c) b
  | .alt a b, c => Re.mkAlt (a.deriv c) (b.deriv c)
  | .star a, c => Re.mkCat (a.deriv c) (.star a)

/-- Whole-string matching via iterated derivatives. -/
def reMatches (r : Re) (s : Str) : Bool :=
  (s.foldl Re.deriv r).nullable

/-- Parse the body of a character class, after `[` and the optional `^`.
Returns the ranges and the input past the closing `]`.  A missing `]`
or an out-of-order range is a SyntaxError (`none`), as in ECMAScript. -/
def parseClassBody (fuel : Nat) (cs : Str) : Option (List (Char × Char) × Str) :=
  match fuel with
  | 0 => none
  | fuel + 1 =>
    match cs with
    | [] => none
    | ']' :: rest => some ([], rest)
    | c :: rest =>
      let first : Option (Char × Str) :=
        if c = '\\' then
          match rest with
          | [] => none
          | e :: rest' => if e.isAlphanum then none else some (e, rest')
        else some (c, rest)
      match first with
      | none => none
      | some (a, rest1) =>
        match rest1 with
        | '-' :: ']' :: rest2 =>
          -- trailing '-' is a literal class member
          (parseClassBody fuel (']' :: rest2)).map
            (fun p => ((a, a) :: ('-', '-') :: p.1, p.2))
        | '-' :: d :: rest2 =>
          let hi : Option (Char × Str) :=
            if d = '\\' then
              match rest2 with
              | [] => none
              | e :: rest3 => if e.isAlphanum then none else some (e, rest3)
            else some (d, rest2)
          match hi with
          | none => none
          | some (b, rest3) =>
            if a ≤ b then
              (parseClassBody fuel rest3).map (fun p => ((a, b) :: p.1, p.2))
            else none
        | _ =>
          (parseClassBody fuel rest1).map (fun p => ((a, a) :: p.1, p.2))

/-- Parse one atom of the regex subset.  Unsupported or invalid leading
constructs give `none`. -/
def parseAtom (fuel : Nat) (cs : Str) : Option (Re × Str) :=
  match cs with
  | [] => none
  | '(' :: _ => none
  | ')' :: _ => none
  | '|' :: _ => none
  | '^' :: _ => none
  | '$' :: _ => none
  | '{' :: _ => none
  | '}' :: _ => none
  | '*' :: _ => none
  | '+' :: _ => none
  | '?' :: _ => none
  | '.' :: rest => some (.dot, rest)
  | '[' :: '^' :: rest =>
    (parseClassBody fuel rest).map (fun p => (.cls true p.1, p.2))
  | '[' :: rest =>
    (parseClassBody fuel rest).map (fun p => (.cls false p.1, p.2))
  | '\\' :: [] => none
  | '\\' :: e :: rest => if e.isAlphanum then none else some (.lit e, rest)
  | c :: rest => some (.lit c, rest)

/-- Parse a sequence of atoms, each with an optional postfix quantifier
(`*`, `+` or `?`).  A quantifier with nothing to repeat, or a doubled
quantifier, is a SyntaxError (`none`), as in ECMAScript. -/
def parseSeq (fuel : Nat) (acc : Re) (cs : Str) : Option Re :=
  match fuel with
  | 0 => none
  | fuel + 1 =>
    match cs with
    | [] => some acc
    | _ =>
      match parseAtom fuel cs with
      | none => none
      | some (a, rest) =>
        match rest with
        | '*' :: '*' :: _ => none
        | '*' :: '+' :: _ => none
        | '*' :: '?' :: _ => none
        | '+' :: '*' :: _ => none
        | '+' :: '+' :: _ => none
        | '+' :: '?' :: _ => none
        | '?' :: '*' :: _ => none
        | '?' :: '+' :: _ => none
        | '?' :: '?' :: _ => none
        | '*' :: rest' => parseSeq fuel (Re.mkCat acc (.star a)) rest'
        | '+' :: rest' => parseSeq fuel (Re.mkCat acc (.cat a (.star a))) rest'
        | '?' :: rest' => parseSeq fuel (Re.mkCat acc (.alt a .eps)) rest'
        | _ => parseSeq fuel (Re.mkCat acc a) rest

/-- Compile a regex source string (the part between the added `^` and
`$`) to the subset AST; `none` models a `new RegExp` SyntaxError. -/
def compileRe (cs : Str) : Option Re :=
  parseSeq (cs.length + 1) .eps cs

/-- First glob-translation pass: every `**` becomes `.*`
(`pattern.replace(/\*\*/g, '.*')`, left to right, no rescanning). -/
def replaceStarStar : Str → Str
  | '*' :: '*' :: rest => '.' :: '*' :: replaceStarStar rest
  | c :: rest => c :: replaceStarStar rest
  | [] => []

/-- Second pass: every remaining `*` becomes `[^/]*`
(`.replace(/\*/g, '[^/]*')`).  Note that this also rewrites the `*` of
any `.*` produced by the first pass. -/
def replaceStar : Str → Str
  | '*' :: rest => '[' :: '^' :: '/' :: ']' :: '*' :: replaceStar rest
  | c :: rest => c :: replaceStar rest
  | [] => []

/-- Third pass: every `?` becomes `[^/]` (`.replace(/\?/g, '[^/]')`). -/
def replaceQm : Str → Str
  | '?' :: rest => '[' :: '^' :: '/' :: ']' :: replaceQm rest
  | c :: rest => c :: replaceQm rest
  | [] => []

/-- `analyzer.ts` `matchesPattern(filePath, pattern)`: translate the
glob, build `new RegExp('^' + regex + '$')` and `.test` the path.
`none` models the RegExp constructor throwing on a malformed pattern. -/
def matchesPattern (filePath pattern : Str) : Option Bool :=
  let regex := replaceQm (replaceStar (replaceStarStar pattern))
  match compileRe regex with
  | none => none
  | some r => some (reMatches r filePath)

/-- One `for` loop of `shouldAnalyzeFile`: does any pattern match?
Stops at the first match; `none` models a thrown exception. -/
def checkAny (filePath : Str) : List Str → Option Bool
  | [] => some false
  | p :: rest =>
    match matchesPattern filePath p with
    | none => none
    | some true => some true
    | some false => checkAny filePath rest

/-- The include block of `shouldAnalyzeFile`: when an include list is
configured (JS truthiness: an empty array counts as configured), return
whether any include pattern matches; otherwise default to `true`. -/
def includePhase (includePatterns : Option (List Str)) (filePath : Str) :
    Option Bool :=
  match includePatterns with
  | none => some true
  | some il =>
    match checkAny filePath il with
    | none => none
    | some b => some b

/-- `analyzer.ts` `shouldAnalyzeFile`: exclude patterns first (any match
rejects), then the include block; default accept.  The pattern lists
are `Option`s because the config fields may be absent (JS `undefined`
is falsy). -/
def shouldAnalyzeFile (includePatterns excludePatterns : Option (List Str))
    (filePath : Str) : Option Bool :=
  match excludePatterns with
  | none => includePhase includePatterns filePath
  | some ex =>
    match checkAny filePath ex with
    | none => none
    | some true => some false
    | some false => includePhase includePatterns filePath

/-!
### Model of `git-utils.ts` diff parsing

`parseDiffOutput` splits the diff text on newlines and scans it,
tracking `currentLineNumber` in the post-change numbering.  A hunk
header is recognised by `line.startsWith('@@')` and the (unanchored)
regex `@@ -\d+,?\d* \+(\d+),?\d* @@`, whose first capture group sets
the counter.  `+` lines (other than `+++`) emit additions and advance
the counter, `-` lines (other than `---`) emit deletions without
advancing, unmarked context lines advance.  `getContextLines` takes the
window of `2*3+1` raw lines around the scan position, keeps those
starting with a space and strips that space.
-/

/-- One parsed change, mirroring the `GitChange` record
(`type` is the string `'addition'` or `'deletion'`). -/
structure GitChange where
  type : Str
  lineNumber : Nat
  content : Str
  context : List Str
deriving DecidableEq, Repr

/-- `getContextLines(lines, currentIndex, contextSize = 3)`:
`lines.slice(max(0, i-3), min(len, i+4))`, filtered to lines starting
with a space, with the space stripped (`substring(1)`). -/
def getContextLines (lines : List Str) (currentIndex : Nat) : List Str :=
  let start := currentIndex - 3
  let stop := min lines.length (currentIndex + 3 + 1)
  (((lines.drop start).take (stop - start)).filter
      (fun l => strStartsWith (str " ") l)).map (fun l => l.drop 1)

/-- Try the hunk-header regex `@@ -\d+,?\d* \+(\d+),?\d* @@` at the
start of `cs`; return the first capture group (`parseInt`-ed). -/
def hunkAt (cs : Str) : Option Nat :=
  match cs with
  | '@' :: '@' :: ' ' :: '-' :: rest =>
    let d1 := rest.takeWhile Char.isDigit
    if d1.isEmpty then none else
    let r1 := rest.dropWhile Char.isDigit
    let r2 := match r1 with
      | ',' :: t => t
      | _ => r1
    let r3 := r2.dropWhile Char.isDigit
    match r3 with
    | ' ' :: '+' :: r4 =>
      let d2 := r4.takeWhile Char.isDigit
      if d2.isEmpty then none else
      let r5 := r4.dropWhile Char.isDigit
      let r6 := match r5 with
        | ',' :: t => t
        | _ => r5
      let r7 := r6.dropWhile Char.isDigit
      match r7 with
      | ' ' :: '@' :: '@' :: _ => some (natOfDigits d2)
      | _ => none
    | _ => none
  | _ => none

/-- Unanchored search of the hunk-header regex over the line
(`line.match(...)`), returning the new-start capture of the leftmost
match. -/
def parseHunkHeader : Str → Option Nat
  | [] => none
  | c :: rest =>
    match hunkAt (c :: rest) with
    | some n => some n
    | none => parseHunkHeader rest

/-- The scan loop of `parseDiffOutput`.  `all` is the full line array
(needed for context windows), `rest` the lines still to scan, `i` the
index of the head of `rest` in `all`, `cur` the current line number. -/
def parseDiffGo (all : List Str) : List Str → Nat → Nat → List GitChange
  | [], _, _ => []
  | l :: rest, i, cur =>
    if strStartsWith (str "@@") l then
      match parseHunkHeader l with
      | some n => parseDiffGo all rest (i + 1) n
      | none => parseDiffGo all rest (i + 1) cur
    else if strStartsWith (str "+") l && !strStartsWith (str "+++") l then
      { type := str "addition", lineNumber := cur, content := l.drop 1,
        context := getContextLines all i } ::
        parseDiffGo all rest (i + 1) (cur + 1)
    else if strStartsWith (str "-") l && !strStartsWith (str "---") l then
      { type := str "deletion", lineNumber := cur, content := l.drop 1,
        context := getContextLines all i } ::
        parseDiffGo all rest (i + 1) cur
    else if strStartsWith (str " ") l then
      parseDiffGo all rest (i + 1) (cur + 1)
    else
      parseDiffGo all rest (i + 1) cur

/-- `git-utils.ts` `parseDiffOutput(diffOutput)`. -/
def parseDiffOutput (diffOutput : Str) : List GitChange :=
  let lines := splitNl diffOutput
  parseDiffGo lines lines 0 0

/-!
### Model of `analyzer.ts` section extraction

Each scalar section is matched by a regex of the shape
`(?:H)[:\-\s]*([\s\S]*?)(?=\n(?:S1|...|Sk|$))` with the `i` flag, via
`String.prototype.match` (leftmost match).  Its ECMAScript semantics,
reproduced here: find the first case-insensitive occurrence of the
heading `H`; let `j` be the position after it and `gmax` the length of
the following greedy `[:\-\s]*` run.  A position `p` "qualifies" when
`s[p] = '\n'` and either `p+1` is the end of the input or one of the
stop words `Si` is a case-insensitive prefix of the text after `p`
(note: the `$` alternative still requires the preceding `\n`).  The
greedy run backtracks from `gmax` while the lazy capture grows, so the
engine settles on `g = min gmax (pmax - j)` where `pmax` is the last
qualifying position `≥ j`, and the capture runs from `j + g` to the
first qualifying position `≥ j + g`.  If no position `≥ j` qualifies,
the whole match fails — also at every later heading occurrence, so the
section is absent.  The `Suggestions` regex instead captures lazily up
to `$`, i.e. from `j + gmax` to the end of the input.
-/

/-- Case-insensitive prefix test (`pat` given in lower case), using the
canonicalisation of the ECMAScript `i` flag restricted to `toLower`. -/
def ciStarts (pat s : Str) : Bool :=
  ((s.take pat.length).map Char.toLower) == pat

/-- Index of the first case-insensitive occurrence of `pat` in `s`. -/
def findCi (pat : Str) (s : Str) : Option Nat :=
  match s with
  | [] => none
  | c :: rest =>
    if ciStarts pat (c :: rest) then some 0
    else (findCi pat rest).map (· + 1)

/-- The `[:\-\s]` character class. -/
def sepClass (c : Char) : Bool :=
  c == ':' || c == '-' || jsWhitespace c

/-- Does position `p` of `s` satisfy the lookahead
`(?=\n(?:stop1|...|stopk|$))`? -/
def qualifies (stops : List Str) (s : Str) (p : Nat) : Bool :=
  (s.drop p).headD 'x' == '\n' &&
  (p + 1 == s.length || stops.any (fun st => ciStarts st (s.drop (p + 1))))

/-- All qualifying positions of `s` at or after `j`, in order. -/
def qualPositions (stops : List Str) (s : Str) (j : Nat) : List Nat :=
  (List.range s.length).filter (fun p => j ≤ p && qualifies stops s p)

/-- The raw (untrimmed) capture group of the scalar-section regex for
heading `heading` and stop words `stops`, or `none` when the regex does
not match `s`. -/
def sectionCapture (heading : Str) (stops : List Str) (s : Str) : Option Str :=
  match findCi heading s with
  | none => none
  | some i =>
    let j := i + heading.length
    let gmax := ((s.drop j).takeWhile sepClass).length
    match (qualPositions stops s j).getLast? with
    | none => none
    | some pmax =>
      let g := min gmax (pmax - j)
      match (qualPositions stops s j).find? (fun p => j + g ≤ p) with
      | none => none
      | some p => some ((s.drop (j + g)).take (p - (j + g)))

/-- The raw capture of the `Suggestions` regex
`(?:Suggestions|SUGGESTIONS)[:\-\s]*([\s\S]*?)$`: everything after the
heading and the greedy separator run. -/
def tailCapture (heading : Str) (s : Str) : Option Str :=
  match findCi heading s with
  | none => none
  | some i =>
    let j := i + heading.length
    let gmax := ((s.drop j).takeWhile sepClass).length
    some (s.drop (j + gmax))

/-- Leading bullet characters `[\-\*\+\d]`. -/
def bulletChar (c : Char) : Bool :=
  c == '-' || c == '*' || c == '+' || c.isDigit

/-- `line.replace(/^[\-\*\+\d]+\.?\s*/, '')`: strip one leading run of
bullet characters, an optional dot and following whitespace; leave the
line unchanged when the anchored regex does not match. -/
def stripBullet (l : Str) : Str :=
  match l with
  | [] => []
  | c :: _ =>
    if bulletChar c then
      let r1 := l.dropWhile bulletChar
      let r2 := match r1 with
        | '.' :: t => t
        | _ => r1
      r2.dropWhile jsWhitespace
    else l

/-- `analyzer.ts` `extractListItems`: split on newlines, trim, drop
blanks, strip bullet/number markers, trim, drop blanks again. -/
def extractListItems (text : Str) : List Str :=
  ((((splitNl text).map trimJs).filter (fun l => !l.isEmpty)).map
      (fun l => trimJs (stripBullet l))).filter (fun l => !l.isEmpty)

/-- The record produced by `extractSections` (absent = field not set). -/
structure Sections where
  summary : Option Str
  purpose : Option Str
  impact : Option Str
  documentation : Option Str
  keyChanges : Option (List Str)
  suggestions : Option (List Str)
deriving DecidableEq, Repr

/-- `analyzer.ts` `extractSections`: the six heading regexes, scalar
captures trimmed, list captures fed raw to `extractListItems`. -/
def extractSections (response : Str) : Sections where
  summary := (sectionCapture (str "summary")
    [str "purpose", str "key", str "impact", str "documentation",
     str "suggestions"] response).map trimJs
  purpose := (sectionCapture (str "purpose")
    [str "key", str "impact", str "documentation",
     str "suggestions"] response).map trimJs
  impact := (sectionCapture (str "impact")
    [str "documentation", str "suggestions"] response).map trimJs
  documentation := (sectionCapture (str "documentation")
    [str "suggestions"] response).map trimJs
  keyChanges := (sectionCapture (str "key changes")
    [str "impact", str "documentation", str "suggestions"] response).map
      extractListItems
  suggestions := (tailCapture (str "suggestions") response).map
    extractListItems

/-- The `AnalysisResult` record assembled by `parseAnalysisResponse`. -/
structure AnalysisResult where
  file : Str
  language : Str
  summary : Str
  purpose : Str
  keyChanges : List Str
  impact : Str
  documentation : Str
  suggestions : List Str
deriving DecidableEq, Repr

/-- JavaScript `x || d` for an optional string field: an absent field
and an empty string are both falsy and fall back to `d`. -/
def orDefault (o : Option Str) (d : Str) : Str :=
  match o with
  | none => d
  | some v => if v.isEmpty then d else v

/-- `analyzer.ts` `parseAnalysisResponse`: fill placeholders for scalar
sections, the raw response for `documentation`, empty lists for the
list sections. -/
def parseAnalysisResponse (filePath language response : Str) : AnalysisResult :=
  let sections := extractSections response
  { file := filePath
    language := language
    summary := orDefault sections.summary (str "No summary provided")
    purpose := orDefault sections.purpose (str "No purpose identified")
    keyChanges := sections.keyChanges.getD []
    impact := orDefault sections.impact (str "Impact not specified")
    documentation := orDefault sections.documentation response
    suggestions := sections.suggestions.getD [] }


/-!
## Theorems
-/

/-- Helper: when the pattern loop returns a value, that value is `true`
exactly when some pattern in the list matches. -/
theorem checkAny_some_iff (path : Str) :
    ∀ (l : List Str) (b : Bool), checkAny path l = some b →
      (b = true ↔ ∃ p ∈ l, matchesPattern path p = some true) := by
  intro l
  induction l with
  | nil =>
    intro b hb
    simp [checkAny] at hb
    simp [hb]
  | cons p rest ih =>
    intro b hb
    simp only [checkAny] at hb
    cases hm : matchesPattern path p with
    | none => rw [hm] at hb; cases hb
    | some v =>
      rw [hm] at hb
      cases v with
      | true =>
        simp at hb
        subst hb
        simp
        exact Or.inl hm
      | false =>
        have := ih b hb
        rw [this]
        constructor
        · rintro ⟨q, hq, hqm⟩; exact ⟨q, by simp [hq], hqm⟩
        · rintro ⟨q, hq, hqm⟩
          rcases List.mem_cons.mp hq with h | h
          · subst h; rw [hm] at hqm; cases hqm
          · exact ⟨q, h, hqm⟩

/-- C1: Evaluation of the four glob round-trip examples on the code's
translation.  Because the second replacement (`*` → `[^/]*`) also
rewrites the `*` inside the `.*` produced for `**`, the pattern
`**/*.ts` compiles to `^.[^/]*/[^/]*.ts$`, which cannot cross two
directory separators: it REJECTS `src/deep/nested/file.ts`, contrary to
the claim.  The other three examples behave as claimed. -/
theorem glob_roundtrip_on_code :
    matchesPattern (str "src/deep/nested/file.ts") (str "**/*.ts") = some false ∧
    matchesPattern (str "src/file.tsx") (str "**/*.ts") = some false ∧
    matchesPattern (str "src/file.ts") (str "*.ts") = some false ∧
    matchesPattern (str "file.ts") (str "*.ts") = some true := by
  decide

/-- C3: A malformed pattern does not behave as a never-matching
predicate: `matchesPattern` constructs `new RegExp` without any
try/catch, so an unparseable pattern throws a SyntaxError (modelled as
`none`) instead of returning `false`.  `(` compiles to `^($`
(unterminated group) and `[` to `^[$` (unterminated character class). -/
theorem malformed_pattern_compile_throws :
    matchesPattern (str "src/file.ts") (str "(") = none ∧
    matchesPattern (str "a") (str "[") = none := by
  decide

/-- C4: Whenever the filter reaches a decision, the decision accepts
exactly when no exclude pattern matches and, if an include list is
configured, some include pattern matches; with no include list
configured, any path not excluded is accepted.  In particular a path
matching an exclude pattern is rejected regardless of the includes. -/
theorem filter_exclude_before_include (path : Str)
    (includePatterns excludePatterns : Option (List Str)) (r : Bool)
    (h : shouldAnalyzeFile includePatterns excludePatterns path = some r) :
    r = true ↔
      ((∀ p ∈ excludePatterns.getD [], matchesPattern path p ≠ some true) ∧
       (∀ il, includePatterns = some il →
          ∃ p ∈ il, matchesPattern path p = some true)) := by
  have hinc : ∀ (r' : Bool), includePhase includePatterns path = some r' →
      (r' = true ↔ ∀ il, includePatterns = some il →
          ∃ p ∈ il, matchesPattern path p = some true) := by
    intro r' h'
    cases includePatterns with
    | none => simp [includePhase] at h'; simp [h']
    | some il =>
      simp only [includePhase] at h'
      cases hc : checkAny path il with
      | none => rw [hc] at h'; cases h'
      | some b =>
        rw [hc] at h'
        simp at h'
        subst h'
        rw [checkAny_some_iff path il b hc]
        constructor
        · intro he il' hil'
          cases hil'
          exact he
        · intro hall; exact hall il rfl
  cases excludePatterns with
  | none =>
    simp only [shouldAnalyzeFile] at h
    simp only [Option.getD]
    rw [hinc r h]
    simp
  | some ex =>
    simp only [shouldAnalyzeFile] at h
    cases hc : checkAny path ex with
    | none => rw [hc] at h; cases h
    | some b =>
      rw [hc] at h
      cases b with
      | true =>
        simp at h
        subst h
        have hex := (checkAny_some_iff path ex true hc).mp rfl
        simp only [Option.getD]
        constructor
        · intro hfalse; cases hfalse
        · rintro ⟨hnone, -⟩
          obtain ⟨p, hp, hpm⟩ := hex
          exact absurd hpm (hnone p hp)
      | false =>
        simp only at h
        have hex : ∀ p ∈ ex, matchesPattern path p ≠ some true := by
          intro p hp hpm
          have := (checkAny_some_iff path ex false hc).mpr ⟨p, hp, hpm⟩
          cases this
        rw [hinc r h]
        simp only [Option.getD]
        constructor
        · intro hi; exact ⟨hex, hi⟩
        · rintro ⟨-, hi⟩; exact hi

/-- Witness for C4 at a concrete ruleset: `src/a.ts` passes the exclude
list `["**/*.test.*"]`, matches the include list `["**/*.ts"]`, and is
accepted. -/
theorem filter_exclude_before_include_witness :
    shouldAnalyzeFile (some [str "**/*.ts"]) (some [str "**/*.test.*"])
        (str "src/a.ts") = some true ∧
    ((true = true) ↔
      ((∀ p ∈ (some [str "**/*.test.*"] : Option (List Str)).getD [],
          matchesPattern (str "src/a.ts") p ≠ some true) ∧
       (∀ il, (some [str "**/*.ts"] : Option (List Str)) = some il →
          ∃ p ∈ il, matchesPattern (str "src/a.ts") p = some true))) :=
  ⟨by decide,
   filter_exclude_before_include (str "src/a.ts") (some [str "**/*.ts"])
     (some [str "**/*.test.*"]) true (by decide)⟩

/-- C10: An include list that is present but empty rejects every path on
which the filter reaches a decision: the JS truthiness test
`if (includePatterns)` treats an empty array as configured, the loop
over it finds no match, and `return false` fires. -/
theorem empty_include_rejects_all (path : Str)
    (excludePatterns : Option (List Str)) (r : Bool)
    (h : shouldAnalyzeFile (some []) excludePatterns path = some r) :
    r = false := by
  cases excludePatterns with
  | none =>
    simp only [shouldAnalyzeFile] at h
    simp [includePhase, checkAny] at h
    simp_all
  | some ex =>
    simp only [shouldAnalyzeFile] at h
    cases hc : checkAny path ex with
    | none => rw [hc] at h; cases h
    | some b =>
      rw [hc] at h
      cases b with
      | true => simp at h; simp_all
      | false => simp [includePhase, checkAny] at h; simp_all

/-- Witness for C10: with exclude list `["dist/**"]` (which `a.ts` does
not match) and the empty include list, `a.ts` is rejected. -/
theorem empty_include_rejects_all_witness :
    shouldAnalyzeFile (some []) (some [str "dist/**"]) (str "a.ts") =
      some false ∧ (false : Bool) = false :=
  ⟨by decide,
   empty_include_rejects_all (str "a.ts") (some [str "dist/**"]) false
     (by decide)⟩

/-- C6: The one-hunk end-to-end diff scenario: one addition record at
post-change line 2, with content `line2` and context `line1`/`line3`. -/
theorem diff_single_addition_scenario :
    parseDiffOutput (str "@@ -1,2 +1,3 @@\n line1\n+line2\n line3\n") =
      [{ type := str "addition", lineNumber := 2, content := str "line2",
         context := [str "line1", str "line3"] }] := by
  decide

/-- Helper: on a body of pure deletion lines every emitted record is a
deletion carrying the unchanged current line number. -/
theorem parseDiffGo_deletions (all : List Str) :
    ∀ (body : List Str) (i n : Nat),
      (∀ l ∈ body, strStartsWith (str "-") l = true ∧
        strStartsWith (str "---") l = false) →
      ∀ c ∈ parseDiffGo all body i n,
        c.type = str "deletion" ∧ c.lineNumber = n := by
  intro body
  induction body with
  | nil => intro i n _ c hc; simp [parseDiffGo] at hc
  | cons l rest ih =>
    intro i n h c hc
    obtain ⟨h1, h3⟩ := h l (List.mem_cons_self l rest)
    obtain ⟨t, rfl⟩ : ∃ t, l = '-' :: t := by
      cases l with
      | nil => cases h1
      | cons a t =>
        simp only [strStartsWith, str, Bool.and_eq_true, beq_iff_eq] at h1
        exact ⟨t, by rw [h1.1]⟩
    have c1 : strStartsWith (str "@@") ('-' :: t) = false := rfl
    have c2 : (strStartsWith (str "+") ('-' :: t) &&
        !strStartsWith (str "+++") ('-' :: t)) = false := rfl
    have c3 : (strStartsWith (str "-") ('-' :: t) &&
        !strStartsWith (str "---") ('-' :: t)) = true := by
      rw [h3]; rfl
    rw [parseDiffGo, if_neg (by simp [c1]), if_neg (by simp [c2]),
        if_pos (by simp [c3])] at hc
    rcases List.mem_cons.mp hc with hh | hh
    · subst hh; exact ⟨rfl, rfl⟩
    · exact ih (i + 1) n (fun l' hl' => h l' (List.mem_cons_of_mem _ hl')) c hh

/-- C7: For a single-hunk diff whose body consists solely of deletion
lines (none being the `---` file marker), every emitted record is a
Deletion whose `lineNumber` is the hunk header's declared new-start:
deletions never advance the current line counter. -/
theorem deletions_keep_new_start (s : Str) (hdr : Str) (body : List Str)
    (n : Nat)
    (hsplit : splitNl s = hdr :: body)
    (hhdr : strStartsWith (str "@@") hdr = true)
    (hparse : parseHunkHeader hdr = some n)
    (hbody : ∀ l ∈ body, strStartsWith (str "-") l = true ∧
      strStartsWith (str "---") l = false) :
    ∀ c ∈ parseDiffOutput s,
      c.type = str "deletion" ∧ c.lineNumber = n := by
  intro c hc
  unfold parseDiffOutput at hc
  rw [hsplit] at hc
  rw [parseDiffGo, if_pos (by simp [hhdr]), hparse] at hc
  exact parseDiffGo_deletions (hdr :: body) body 1 n hbody c hc

/-- Witness for C7: a hunk declaring new-start 7 followed by two
deletion lines yields two Deletion records, both numbered 7. -/
theorem deletions_keep_new_start_witness :
    splitNl (str "@@ -3,2 +7,1 @@\n-old line\n-another") =
      [str "@@ -3,2 +7,1 @@", str "-old line", str "-another"] ∧
    parseHunkHeader (str "@@ -3,2 +7,1 @@") = some 7 ∧
    ∀ c ∈ parseDiffOutput (str "@@ -3,2 +7,1 @@\n-old line\n-another"),
      c.type = str "deletion" ∧ c.lineNumber = 7 :=
  ⟨by decide, by decide,
   deletions_keep_new_start (str "@@ -3,2 +7,1 @@\n-old line\n-another")
     (str "@@ -3,2 +7,1 @@") [str "-old line", str "-another"] 7
     (by decide) (by decide) (by decide) (by decide)⟩

/-- C8 counterexample: the context window is taken over the raw line
array without regard to hunk boundaries.  In this two-hunk diff the
sole record belongs to the second hunk (header at index 2, its `+` line
at index 3), yet its context contains `ctxA`, the context line of the
FIRST hunk (index 1): a line outside the record's own hunk appears in
its context, refuting the claim's "never appear" conjunct. -/
theorem context_crosses_hunk_boundary :
    parseDiffOutput (str "@@ -1,2 +1,2 @@\n ctxA\n@@ -10,2 +10,2 @@\n+new\n") =
      [{ type := str "addition", lineNumber := 10, content := str "new",
         context := [str "ctxA"] }] ∧
    splitNl (str "@@ -1,2 +1,2 @@\n ctxA\n@@ -10,2 +10,2 @@\n+new\n") =
      [str "@@ -1,2 +1,2 @@", str " ctxA", str "@@ -10,2 +10,2 @@",
       str "+new", str ""] := by
  decide

/-- Helper: a context window never holds more than `2*3+1` lines. -/
theorem getContextLines_length_le (lines : List Str) (i : Nat) :
    (getContextLines lines i).length ≤ 7 := by
  unfold getContextLines
  rw [List.length_map]
  calc (((lines.drop (i - 3)).take
        (min lines.length (i + 3 + 1) - (i - 3))).filter
          (fun l => strStartsWith (str " ") l)).length
      ≤ ((lines.drop (i - 3)).take
        (min lines.length (i + 3 + 1) - (i - 3))).length :=
        List.length_filter_le _ _
    _ ≤ min lines.length (i + 3 + 1) - (i - 3) := List.length_take_le _ _
    _ ≤ 7 := by omega

/-- Helper: every context entry comes from a line of the raw array at
distance at most 3 from the scan position, starting with a space, with
that space stripped. -/
theorem getContextLines_mem (lines : List Str) (i : Nat) (t : Str)
    (ht : t ∈ getContextLines lines i) :
    ∃ j, j < lines.length ∧ i - 3 ≤ j ∧ j ≤ i + 3 ∧
      lines.getD j [] = ' ' :: t := by
  unfold getContextLines at ht
  obtain ⟨l, hl, hlt⟩ := List.mem_map.mp ht
  obtain ⟨hmem, hsp⟩ := List.mem_filter.mp hl
  obtain ⟨m, hm, hget⟩ := List.mem_iff_getElem.mp hmem
  have hmlt : m < min lines.length (i + 3 + 1) - (i - 3) := by
    have := hm
    rw [List.length_take] at this
    omega
  have hdroplen : m < (lines.drop (i - 3)).length := by
    have := hm
    rw [List.length_take] at this
    omega
  have hj : (i - 3) + m < lines.length := by
    rw [List.length_drop] at hdroplen
    omega
  refine ⟨(i - 3) + m, hj, by omega, by omega, ?_⟩
  have hline : lines[(i - 3) + m] = l := by
    rw [← hget, List.getElem_take, List.getElem_drop]
  obtain ⟨u, rfl⟩ : ∃ u, l = ' ' :: u := by
    cases l with
    | nil => cases hsp
    | cons a u =>
      simp only [strStartsWith, str, Bool.and_eq_true, beq_iff_eq] at hsp
      exact ⟨u, by rw [hsp.1]⟩
  rw [List.getD_eq_getElem lines [] hj, hline]
  cases hlt
  rfl

/-- Helper: every record emitted by the scan loop gets its context from
`getContextLines` at the in-bounds index of the record's own line. -/
theorem parseDiffGo_context (all : List Str) :
    ∀ (body : List Str) (i cur : Nat) (c : GitChange),
      i + body.length = all.length →
      c ∈ parseDiffGo all body i cur →
      ∃ k, k < all.length ∧ c.context = getContextLines all k := by
  intro body
  induction body with
  | nil => intro i cur c _ hc; simp [parseDiffGo] at hc
  | cons l rest ih =>
    intro i cur c hlen hc
    have hi : i < all.length := by simp at hlen; omega
    have hrest : (i + 1) + rest.length = all.length := by
      simp at hlen; omega
    rw [parseDiffGo] at hc
    split at hc
    · split at hc
      · exact ih (i + 1) _ c hrest hc
      · exact ih (i + 1) _ c hrest hc
    · split at hc
      · rcases List.mem_cons.mp hc with hh | hh
        · exact ⟨i, hi, by rw [hh]⟩
        · exact ih (i + 1) _ c hrest hh
      · split at hc
        · rcases List.mem_cons.mp hc with hh | hh
          · exact ⟨i, hi, by rw [hh]⟩
          · exact ih (i + 1) _ c hrest hh
        · split at hc
          · exact ih (i + 1) _ c hrest hc
          · exact ih (i + 1) _ c hrest hc

/-- C8 (amended): every emitted record's context is the space-filtered,
space-stripped window of at most `2*3+1` raw diff lines centred on the
record's scan position; in particular every context entry originates
from a line starting with a space within distance 3 (so `+`/`-` lines
never appear, and the context may be empty) — but the window is blind
to hunk boundaries, so lines of a neighbouring hunk may appear. -/
theorem context_window_shape (s : Str) :
    ∀ c ∈ parseDiffOutput s, ∃ i, i < (splitNl s).length ∧
      c.context = getContextLines (splitNl s) i ∧
      c.context.length ≤ 7 ∧
      ∀ t ∈ c.context, ∃ j, j < (splitNl s).length ∧
        i - 3 ≤ j ∧ j ≤ i + 3 ∧ (splitNl s).getD j [] = ' ' :: t := by
  intro c hc
  unfold parseDiffOutput at hc
  obtain ⟨k, hk, hctx⟩ :=
    parseDiffGo_context (splitNl s) (splitNl s) 0 0 c (by simp) hc
  refine ⟨k, hk, hctx, ?_, ?_⟩
  · rw [hctx]; exact getContextLines_length_le _ _
  · intro t ht
    rw [hctx] at ht
    exact getContextLines_mem _ _ _ ht

/-- Witness for C8 (amended) at a concrete diff with one addition whose
context window holds one unmarked line. -/
theorem context_window_shape_witness :
    ({ type := str "addition", lineNumber := 6, content := str "add",
       context := [str "ctx"] } : GitChange) ∈
      parseDiffOutput (str "@@ -1,1 +5,2 @@\n ctx\n+add") ∧
    ∃ i, i < (splitNl (str "@@ -1,1 +5,2 @@\n ctx\n+add")).length ∧
      ([str "ctx"] : List Str) =
        getContextLines (splitNl (str "@@ -1,1 +5,2 @@\n ctx\n+add")) i ∧
      ([str "ctx"] : List Str).length ≤ 7 ∧
      ∀ t ∈ ([str "ctx"] : List Str), ∃ j,
        j < (splitNl (str "@@ -1,1 +5,2 @@\n ctx\n+add")).length ∧
        i - 3 ≤ j ∧ j ≤ i + 3 ∧
        (splitNl (str "@@ -1,1 +5,2 @@\n ctx\n+add")).getD j [] = ' ' :: t :=
  ⟨by decide,
   context_window_shape (str "@@ -1,1 +5,2 @@\n ctx\n+add")
     { type := str "addition", lineNumber := 6, content := str "add",
       context := [str "ctx"] } (by decide)⟩

/-- C2: Evaluation of the end-to-end extraction scenario.  Summary,
purpose and key changes come out as claimed, but the Impact section is
ABSENT, not `"low risk"`: the Impact regex's lookahead
`(?=\n(?:Documentation|Suggestions|$))` still demands a literal newline
before its `$` alternative, and the response has no trailing newline,
so the regex never matches and the caller substitutes the placeholder.
(Appending a trailing newline to the same response makes the impact
capture succeed with `low risk`, confirming the diagnosis.) -/
theorem extract_scenario_on_code :
    extractSections (str "Summary: fixes bug\nPurpose: stability\nKey Changes:\n- fix A\n- fix B\nImpact: low risk") =
      { summary := some (str "fixes bug"), purpose := some (str "stability"),
        impact := none, documentation := none,
        keyChanges := some [str "fix A", str "fix B"],
        suggestions := none } ∧
    (extractSections (str "Summary: fixes bug\nPurpose: stability\nKey Changes:\n- fix A\n- fix B\nImpact: low risk\n")).impact =
      some (str "low risk") ∧
    (parseAnalysisResponse (str "a.ts") (str "typescript")
        (str "Summary: fixes bug\nPurpose: stability\nKey Changes:\n- fix A\n- fix B\nImpact: low risk")).impact =
      str "Impact not specified" := by
  decide

/-- C5 counterexample: when the Documentation section is absent, the
`documentation` field is not a fixed placeholder string but the entire
raw response (`sections.documentation || response`): two different
section-less responses yield two different `documentation` values. -/
theorem doc_fallback_not_fixed :
    (extractSections (str "hello")).documentation = none ∧
    (extractSections (str "bye")).documentation = none ∧
    (parseAnalysisResponse (str "f") (str "ts") (str "hello")).documentation =
      str "hello" ∧
    (parseAnalysisResponse (str "f") (str "ts") (str "bye")).documentation =
      str "bye" ∧
    str "hello" ≠ str "bye" := by
  decide

/-- C5 (amended): for every response, an unlocated Summary, Purpose or
Impact section yields the corresponding fixed placeholder string, while
an unlocated Documentation section yields the raw response itself. -/
theorem scalar_defaults_amended (file lang response : Str) :
    ((extractSections response).summary = none →
      (parseAnalysisResponse file lang response).summary =
        str "No summary provided") ∧
    ((extractSections response).purpose = none →
      (parseAnalysisResponse file lang response).purpose =
        str "No purpose identified") ∧
    ((extractSections response).impact = none →
      (parseAnalysisResponse file lang response).impact =
        str "Impact not specified") ∧
    ((extractSections response).documentation = none →
      (parseAnalysisResponse file lang response).documentation = response) := by
  refine ⟨?_, ?_, ?_, ?_⟩ <;>
    · intro h
      simp [parseAnalysisResponse, orDefault, h]

/-- Witness for C5 (amended) on a heading-free response. -/
theorem scalar_defaults_amended_witness :
    (parseAnalysisResponse (str "f") (str "ts") (str "zzz")).summary =
      str "No summary provided" ∧
    (parseAnalysisResponse (str "f") (str "ts") (str "zzz")).purpose =
      str "No purpose identified" ∧
    (parseAnalysisResponse (str "f") (str "ts") (str "zzz")).impact =
      str "Impact not specified" ∧
    (parseAnalysisResponse (str "f") (str "ts") (str "zzz")).documentation =
      str "zzz" :=
  ⟨(scalar_defaults_amended (str "f") (str "ts") (str "zzz")).1 (by decide),
   (scalar_defaults_amended (str "f") (str "ts") (str "zzz")).2.1 (by decide),
   (scalar_defaults_amended (str "f") (str "ts") (str "zzz")).2.2.1 (by decide),
   (scalar_defaults_amended (str "f") (str "ts") (str "zzz")).2.2.2 (by decide)⟩

/-- C9: Section extraction is a total function of the response text (it
is defined by structural recursion, never raising and never failing),
and on input without a given heading the corresponding section is
simply absent; on heading-free input every field is absent. -/
theorem extract_sections_total_absent (s : Str) :
    (findCi (str "summary") s = none → (extractSections s).summary = none) ∧
    (findCi (str "purpose") s = none → (extractSections s).purpose = none) ∧
    (findCi (str "impact") s = none → (extractSections s).impact = none) ∧
    (findCi (str "documentation") s = none →
      (extractSections s).documentation = none) ∧
    (findCi (str "key changes") s = none →
      (extractSections s).keyChanges = none) ∧
    (findCi (str "suggestions") s = none →
      (extractSections s).suggestions = none) := by
  refine ⟨?_, ?_, ?_, ?_, ?_, ?_⟩ <;>
    · intro h
      simp [extractSections, sectionCapture, tailCapture, h]

/-- Witness for C9 on a heading-free response: every section absent. -/
theorem extract_sections_total_absent_witness :
    (extractSections (str "lorem ipsum")).summary = none ∧
    (extractSections (str "lorem ipsum")).purpose = none ∧
    (extractSections (str "lorem ipsum")).impact = none ∧
    (extractSections (str "lorem ipsum")).documentation = none ∧
    (extractSections (str "lorem ipsum")).keyChanges = none ∧
    (extractSections (str "lorem ipsum")).suggestions = none :=
  ⟨(extract_sections_total_absent (str "lorem ipsum")).1 (by decide),
   (extract_sections_total_absent (str "lorem ipsum")).2.1 (by decide),
   (extract_sections_total_absent (str "lorem ipsum")).2.2.1 (by decide),
   (extract_sections_total_absent (str "lorem ipsum")).2.2.2.1 (by decide),
   (extract_sections_total_absent (str "lorem ipsum")).2.2.2.2.1 (by decide),
   (extract_sections_total_absent (str "lorem ipsum")).2.2.2.2.2 (by decide)⟩
